import Mathlib

/-!
Shallow embedding of `node-graylogger` (src/logger.js, src/rabbitmq-lib.js)
and proofs of the specified properties.

JavaScript objects are modelled as insertion-ordered association lists with
assignment-overwrite semantics (`jsSet`), JavaScript values as the inductive
`JValue`.  Impure reads performed by the code (`Date.now()`, `os.hostname()`,
`toLocaleString()`) are passed explicitly as an `Ambient` record; a promise
that settles is modelled as `Except JsErr Unit`.
-/

namespace Graylogger

/-- JavaScript values as far as the logger manipulates them. -/
inductive JValue where
  | str : String → JValue
  | num : ℚ → JValue
  | undef : JValue
  deriving DecidableEq, Repr

/-- A JavaScript object: insertion-ordered key/value pairs, keys unique. -/
abbrev JObj := List (String × JValue)

/-- Property assignment `o[k] = v`: overwrites an existing key in place,
otherwise appends the new key at the end (JS insertion order). -/
def jsSet (o : JObj) (k : String) (v : JValue) : JObj :=
  match o with
  | [] => [(k, v)]
  | (k', v') :: rest =>
      if k' = k then (k', v) :: rest else (k', v') :: jsSet rest k v

/-- Property read `o[k]`. -/
def jsGet (o : JObj) (k : String) : Option JValue :=
  match o with
  | [] => none
  | (k', v') :: rest => if k' = k then some v' else jsGet rest k

/-- Write a whole list of pairs into an object, prefixing every key:
the `for (let key in data) obj['_' + key] = data[key]` loop of
`getLogObject`. -/
def setAllUnderscored (o : JObj) (data : JObj) : JObj :=
  data.foldl (fun acc kv => jsSet acc ("_" ++ kv.1) kv.2) o

/-! ## Log Record Builder (src/logger.js, `Logger.getLogObject`) -/

/-- The fields of the construction config that `getLogObject` reads. -/
structure GConfig where
  env : JValue
  appName : JValue
  deriving DecidableEq, Repr

/-- Ambient state read by `getLogObject` besides its arguments:
`Date.now()` (milliseconds), `os.hostname()`, and the output of
`new Date(timestamp).toLocaleString()`. -/
structure Ambient where
  now : ℕ
  hostname : String
  localeStr : String
  deriving DecidableEq, Repr

/-- The regex replace `.replace(/( AM| PM)/, '.' + timestamp % 1000 + '$1')`:
insert `'.' ++ ms` before the first occurrence of `" AM"` or `" PM"`. -/
def insertMillis (ms : String) : List Char → List Char
  | ' ' :: 'A' :: 'M' :: rest => ('.' :: ms.data) ++ (' ' :: 'A' :: 'M' :: rest)
  | ' ' :: 'P' :: 'M' :: rest => ('.' :: ms.data) ++ (' ' :: 'P' :: 'M' :: rest)
  | c :: rest => c :: insertMillis ms rest
  | [] => []

/-- The `_localeDate` value: locale-formatted date with milliseconds spliced
in before an AM/PM marker. -/
def localeDate (localeStr : String) (now : ℕ) : String :=
  ⟨insertMillis (toString (now % 1000)) localeStr.data⟩

/-- `Logger.getLogObject(shortMessage, fullMessage, data, level, config)`
(src/logger.js lines 135–155), with the impure reads passed in `amb`. -/
def getLogObject (shortMessage fullMessage : JValue) (data : JObj)
    (level : JValue) (config : GConfig) (amb : Ambient) : JObj :=
  let timestamp := amb.now
  let obj : JObj :=
    [("version", .str "1.1"),
     ("host", .str amb.hostname),
     ("timestamp", .num ((timestamp : ℚ) / 1000)),
     ("short_message", shortMessage),
     ("full_message", fullMessage),
     ("level", level),
     ("_env", config.env),
     ("_localeDate", .str (localeDate amb.localeStr timestamp)),
     ("_app_name", config.appName)]
  setAllUnderscored obj data

/-! ## Transport selection (src/logger.js, `Logger.constructor` lines 7–12) -/

/-- The transports the constructor accepts. -/
def validTransports : List String := ["http", "amqp", "console"]

/-- `String.prototype.toLowerCase()`, for the ASCII range the transport
names live in. -/
def jsToLower (s : String) : String := ⟨s.data.map Char.toLower⟩

/-- Transport normalization in the constructor: lowercase the configured
value; if it is not a known transport, warn once and fall back to
`"console"`.  The second component counts `console.warn` calls. -/
def normalizeTransport (t : String) : String × ℕ :=
  let t := jsToLower t
  if t ∈ validTransports then (t, 0) else ("console", 1)

/-! ## Dispatcher (src/logger.js, `report` lines 75–88)

`report` builds the record, awaits the transport send inside a
`try`/`catch`, and resolves in both branches; in the `catch` branch it
first writes the failure, the record and the data to `console.error`.
The transport outcome is passed in as `sendOutcome`; the returned pair is
(settlement of the returned promise, contents written to the fallback
sink). -/
def report {ε : Type} (shortMessage fullMessage : JValue) (data : JObj)
    (level : JValue) (config : GConfig) (amb : Ambient)
    (sendOutcome : Except ε Unit) :
    Except ε Unit × List (ε × JObj × JObj) :=
  let logObject := getLogObject shortMessage fullMessage data level config amb
  match sendOutcome with
  | .ok _ => (.ok (), [])
  | .error e => (.ok (), [(e, logObject, data)])

/-! ## Queue Connection Manager (src/rabbitmq-lib.js)

An attempt is the body of one `try` block of the `connect` loop:
`amqp.connect` + `createConfirmChannel` + `assertQueue`.  Its outcome is
drawn from an oracle `List Bool` (`true` = all three awaits succeed).
-/

namespace RabbitMQ

/-- Trace of one `connect()` retry loop run against a finite outcome
oracle: how many attempts were started, the delay awaited after each
failed attempt (in order), and whether `isConnected` ended up set. -/
structure ConnectTrace where
  attempts : ℕ
  waits : List ℕ
  isConnected : Bool
  deriving DecidableEq, Repr

/-- The `while (!this.isConnected)` loop (src/rabbitmq-lib.js lines 24–54):
attempt; on success set the flag and return; on failure wait `retryDelay`
and loop.  An exhausted oracle models a cut-off of a still-running loop. -/
def connectLoop (retryDelay : ℕ) : List Bool → ConnectTrace
  | [] => ⟨0, [], false⟩
  | true :: _ => ⟨1, [], true⟩
  | false :: rest =>
      let t := connectLoop retryDelay rest
      ⟨t.attempts + 1, retryDelay :: t.waits, t.isConnected⟩

/-- `connect()` (lines 18–55): returns immediately when `isConnected` is
already set, otherwise runs the retry loop. -/
def connect (isConnected : Bool) (retryDelay : ℕ) (outcomes : List Bool) :
    ConnectTrace :=
  if isConnected then ⟨0, [], true⟩ else connectLoop retryDelay outcomes

/-- `sendMessage` can fail in two ways: `this.channel` is `null` (the
`sendToQueue` call throws a TypeError inside the promise executor, which
rejects the promise), or the confirm-channel callback reports an error
(broker negative acknowledgment / channel error). -/
inductive SendFailure (ε : Type) where
  | nullChannel : SendFailure ε
  | nack : ε → SendFailure ε
  deriving DecidableEq, Repr

/-- `sendMessage(message)` (lines 57–67): requires a channel; resolves
exactly when the broker acknowledgment callback reports no error. -/
def sendMessage {ε : Type} (channel : Option Unit) (ack : Except ε Unit) :
    Except (SendFailure ε) Unit :=
  match channel with
  | none => .error .nullChannel
  | some _ =>
      match ack with
      | .ok _ => .ok ()
      | .error e => .error (.nack e)

/-- Observable closing actions of `close()`. -/
inductive CloseStep where
  | channelClosed
  | connectionClosed
  deriving DecidableEq, Repr

/-- `close()` (lines 69–78): clears `isConnected` first, then awaits
`channel.close()` and `connection.close()` in turn, with no `try`/`catch`
around either await.  `channel`/`connection` are `none` when `null`,
otherwise carry the outcome of their `close()` call.  Result: final
`isConnected`, the closes that completed, and the settlement of the
promise returned to the caller. -/
def close {ε : Type} (channel : Option (Except ε Unit))
    (connection : Option (Except ε Unit)) :
    Bool × List CloseStep × Except ε Unit :=
  match channel with
  | some (.error e) => (false, [], .error e)
  | some (.ok _) =>
      match connection with
      | some (.error e) => (false, [.channelClosed], .error e)
      | some (.ok _) => (false, [.channelClosed, .connectionClosed], .ok ())
      | none => (false, [.channelClosed], .ok ())
  | none =>
      match connection with
      | some (.error e) => (false, [], .error e)
      | some (.ok _) => (false, [.connectionClosed], .ok ())
      | none => (false, [], .ok ())

/-! ### Interleaving model for concurrent `connect()` calls

Each `await` in `connect` is a yield point.  A task is a program counter
through the `connect` body; two tasks share `isConnected`, a global
attempt counter, and the oracle of attempt outcomes.  A schedule is the
list of task choices; each chosen task executes one atomic step.
-/

/-- Program counter through the body of `connect()`. -/
inductive PC where
  | entry
  | loopCheck
  | attempting
  | waiting
  | finished
  deriving DecidableEq, Repr

/-- Shared state of two concurrent `connect()` calls. -/
structure TwoState where
  isConnected : Bool
  attempts : ℕ
  outcomes : List Bool
  pc1 : PC
  pc2 : PC
  deriving DecidableEq, Repr

def getPC (s : TwoState) (t : Bool) : PC := if t then s.pc1 else s.pc2

def setPC (s : TwoState) (t : Bool) (pc : PC) : TwoState :=
  if t then { s with pc1 := pc } else { s with pc2 := pc }

/-- One atomic step of task `t`:
  * `entry`: the `if (this.isConnected) return;` guard (line 19);
  * `loopCheck`: the `while (!this.isConnected)` test; entering the body
    starts an attempt (`await amqp.connect` begins), counted here;
  * `attempting`: the attempt's awaits resolve with the next oracle
    outcome — success sets `isConnected` and returns, failure falls into
    the `catch`;
  * `waiting`: the retry-delay timer fires, back to the loop test. -/
def step (s : TwoState) (t : Bool) : TwoState :=
  match getPC s t with
  | .entry => setPC s t (if s.isConnected then .finished else .loopCheck)
  | .loopCheck =>
      if s.isConnected then setPC s t .finished
      else { setPC s t .attempting with attempts := s.attempts + 1 }
  | .attempting =>
      match s.outcomes with
      | [] => s
      | o :: rest =>
          if o then
            { setPC s t .finished with isConnected := true, outcomes := rest }
          else
            { setPC s t .waiting with outcomes := rest }
  | .waiting => setPC s t .loopCheck
  | .finished => s

/-- Run a schedule of task choices. -/
def run (s : TwoState) : List Bool → TwoState
  | [] => s
  | t :: ts => run (step s t) ts

/-- Two `connect()` calls started while disconnected, against an oracle
where every attempt succeeds. -/
def twoConnectInit : TwoState :=
  { isConnected := false, attempts := 0, outcomes := [true, true],
    pc1 := .entry, pc2 := .entry }

end RabbitMQ

/-! ## Error classification (src/logger.js, `error` lines 114–121 and the
`errorReporters` table lines 25–31)

Error-like values are modelled structurally: a field is `none` when the
corresponding property is `undefined`.  A JavaScript exception raised
while classifying is a `JsErr`; a reporter is a function that either
returns the `report(...)` invocation it makes or throws. -/

/-- JavaScript exceptions thrown during classification (property access on
`undefined`, call of `undefined`). -/
inductive JsErr where
  | typeError : String → JsErr
  deriving DecidableEq, Repr

def jsErrToString : JsErr → String
  | .typeError m => "TypeError: " ++ m

/-- JavaScript truthiness for the values of `JValue`. -/
def truthy : JValue → Bool
  | .str s => s ≠ ""
  | .num q => q ≠ 0
  | .undef => false

/-- An HTTP request object as read by `getApiRequestData`: `auth` carries
`req.auth.id` when `req.auth` is set. -/
structure ApiReq where
  method : JValue
  baseUrl : JValue
  originalUrl : JValue
  ip : JValue
  auth : Option JValue
  body : JObj
  query : JObj
  deriving Repr

/-- A socket object as read by `getSocketRequestData`: `request` is the
headers of `socket.request` (`none` when `socket.request` is
`undefined`), `authToken` carries `socket.authToken.id`. -/
structure Socket where
  id : JValue
  request : Option JObj
  remoteAddress : JValue
  authToken : Option JValue
  deriving Repr

/-- An axios response as read by `appendErrAxiosData`: `config` carries
`response.config.url`, `request` carries `(method, path)`. -/
structure AxResponse where
  status : JValue
  statusText : JValue
  data : JValue
  config : Option JValue
  request : Option (JValue × JValue)
  deriving Repr

/-- An error-like value as the classifier consumes it.  `socketReq` is the
`request` property as iterated by the socket path (a plain object),
separate from the structurally-typed `request` of the api paths. -/
structure ErrObj where
  errorType : Option String
  str : String
  stack : Option String
  level : JValue
  request : Option ApiReq
  mainRequest : Option ApiReq
  socket : Option Socket
  socketReq : Option JObj
  etc : JObj
  response : Option AxResponse
  deriving Repr

/-- Object spread `{ ...a, ...b }`: start from `a`, assign every key of
`b` over it. -/
def mergeSpread (a b : JObj) : JObj :=
  b.foldl (fun acc kv => jsSet acc kv.1 kv.2) a

/-- `String.prototype.split(sep)` for a one-character separator, on the
character list. -/
def splitChar (sep : Char) : List Char → List (List Char)
  | [] => [[]]
  | c :: rest =>
      let r := splitChar sep rest
      if c = sep then [] :: r
      else
        match r with
        | [] => [[c]]
        | t :: ts => (c :: t) :: ts

/-- `String.prototype.split(sep)` for a one-character separator. -/
def jsSplit (s : String) (sep : Char) : List String :=
  (splitChar sep s.data).map fun cs => ⟨cs⟩

/-- The stack parse of `appendErrLocData` (src/logger.js line 207):
`error.stack.split('\n')[1].split('(')[1].split(':')`, then `parts[0]`
and `parts[1]`.  `none` means the chain threw (missing stack, too few
lines, no parenthesis) and the `catch` left the data untouched; note that
`parts[0]` always exists while `parts[1]` may read as `undefined`. -/
def parseErrLoc (stack : Option String) : Option (JValue × JValue) :=
  match stack with
  | none => none
  | some st =>
      match (jsSplit st '\n')[1]? with
      | none => none
      | some line =>
          match (jsSplit line '(')[1]? with
          | none => none
          | some seg =>
              let parts := jsSplit seg ':'
              some (.str (parts.headD ""),
                    match parts[1]? with
                    | some l => .str l
                    | none => .undef)

/-- `Logger.appendErrLocData(error, data)` (lines 205–214) as a pure map
on the data object; the in-place heap view is `appendErrLocDataH`. -/
def appendErrLocData (e : ErrObj) (data : JObj) : JObj :=
  match parseErrLoc e.stack with
  | none => data
  | some (file, line) => jsSet (jsSet data "errFile" file) "errLine" line

/-- `Logger.getApiRequestData(req, etc)` (lines 157–182); `req` being
`undefined` makes the very first property read throw. -/
def getApiRequestData (req : Option ApiReq) (etc : JObj) :
    Except JsErr JObj :=
  match req with
  | none => .error (.typeError "Cannot read properties of undefined (reading method)")
  | some r =>
      let data : JObj :=
        [("method", r.method), ("baseUrl", r.baseUrl),
         ("originalUrl", r.originalUrl), ("ip", r.ip)]
      let data := match r.auth with
                  | some i => jsSet data "userId" i
                  | none => data
      let data :=
        if r.method = .str "POST" then
          r.body.foldl (fun d kv => jsSet d ("POST_" ++ kv.1) kv.2) data
        else if r.method = .str "GET" then
          r.query.foldl (fun d kv => jsSet d ("GET_" ++ kv.1) kv.2) data
        else data
      .ok (etc.foldl (fun d kv => jsSet d ("DATA_" ++ kv.1) kv.2) data)

/-- `Logger.getSocketRequestData(socket, req, etc)` (lines 184–203);
`socket` or `socket.request` being `undefined` throws. -/
def getSocketRequestData (socket : Option Socket) (req : Option JObj)
    (etc : JObj) : Except JsErr JObj :=
  match socket with
  | none => .error (.typeError "Cannot read properties of undefined (reading id)")
  | some s =>
      match s.request with
      | none => .error (.typeError "Cannot read properties of undefined (reading headers)")
      | some headers =>
          let ip := match jsGet headers "x-forwarded-for" with
                    | some v => if truthy v then v else s.remoteAddress
                    | none => s.remoteAddress
          let data : JObj := [("socketId", s.id), ("ip", ip)]
          let data := match s.authToken with
                      | some i => jsSet data "userId" i
                      | none => data
          let data := match req with
                      | some r => r.foldl (fun d kv => jsSet d ("REQ_" ++ kv.1) kv.2) data
                      | none => data
          .ok (etc.foldl (fun d kv => jsSet d ("DATA_" ++ kv.1) kv.2) data)

/-- `Logger.appendErrAxiosData(error, data)` (lines 216–238). -/
def appendErrAxiosData (e : ErrObj) (data : JObj) : JObj :=
  match e.response with
  | none => data
  | some r =>
      let data := jsSet data "axiosStatus" r.status
      let data := jsSet data "axiosStatusText" r.statusText
      let data := jsSet data "axiosResponseData" r.data
      let data := match r.config with
                  | some u => jsSet data "axiosUrl" u
                  | none => data
      match r.request with
      | some (m, p) => jsSet (jsSet data "axiosMethod" m) "axiosPath" p
      | none => data

/-- One `this.report(short, full, data, level)` invocation made by a
reporter. -/
structure Report where
  shortMessage : String
  fullMessage : Option String
  data : JObj
  level : JValue
  deriving DecidableEq, Repr

/-- The report made by `reportGeneralError(error, data)` (lines 98–100):
level 3 is `logLevels.ERROR`. -/
def generalReport (e : ErrObj) (data : JObj) : Report :=
  ⟨e.str, e.stack, appendErrLocData e data, .num 3⟩

def reportGeneralError (e : ErrObj) (data : JObj) : Except JsErr Report :=
  .ok (generalReport e data)

/-- `reportApiError` (lines 123–125). -/
def reportApiError (e : ErrObj) (data : JObj) : Except JsErr Report :=
  match getApiRequestData e.request (mergeSpread e.etc data) with
  | .error err => .error err
  | .ok d => .ok ⟨e.str, e.stack, appendErrLocData e d, e.level⟩

/-- `reportSocketError` (lines 131–133). -/
def reportSocketError (e : ErrObj) (data : JObj) : Except JsErr Report :=
  match getSocketRequestData e.socket e.socketReq (mergeSpread e.etc data) with
  | .error err => .error err
  | .ok d => .ok ⟨e.str, e.stack, appendErrLocData e d, e.level⟩

/-- `reportAxiosError` (lines 127–129): level 3 is `logLevels.ERROR`. -/
def reportAxiosError (e : ErrObj) (data : JObj) : Except JsErr Report :=
  match getApiRequestData e.mainRequest (mergeSpread e.etc data) with
  | .error err => .error err
  | .ok d => .ok ⟨e.str, e.stack, appendErrAxiosData e d, .num 3⟩

/-- `reportUnexpectedApiError` (lines 94–96): level 1 is
`logLevels.ALERT`. -/
def reportUnexpectedApiError (e : ErrObj) (data : JObj) : Except JsErr Report :=
  match getApiRequestData e.request (mergeSpread e.etc data) with
  | .error err => .error err
  | .ok d => .ok ⟨e.str, e.stack, appendErrLocData e d, .num 1⟩

/-- The `errorReporters` table (lines 25–31).  The key `"undefined"` is
literal: reading `this.errorReporters[error.errorType]` with an
`undefined` tag stringifies the key to `"undefined"`. -/
def errorReporters : List (String × (ErrObj → JObj → Except JsErr Report)) :=
  [("api", reportApiError),
   ("socket", reportSocketError),
   ("axios", reportAxiosError),
   ("unexpectedApiErr", reportUnexpectedApiError),
   ("undefined", reportGeneralError)]

/-- An error value as `reportGeneralError` sees a caught `JsErr`. -/
def errOfJs (err : JsErr) : ErrObj :=
  { errorType := none, str := jsErrToString err, stack := none,
    level := .undef, request := none, mainRequest := none, socket := none,
    socketReq := none, etc := [], response := none }

/-- `error(error, data)` (lines 114–121): look the reporter up by the
kind tag; a missing entry makes the call itself throw a TypeError; any
throw is caught and degraded to two `reportGeneralError` calls (original
error first, then the caught one).  The result is the list of reports
made; the function is total — nothing escapes the boundary. -/
def errorCall (e : ErrObj) (d : JObj) : List Report :=
  let key := e.errorType.getD "undefined"
  match errorReporters.lookup key with
  | some rep =>
      match rep e d with
      | .ok r => [r]
      | .error err => [generalReport e d, generalReport (errOfJs err) d]
  | none =>
      [generalReport e d,
       generalReport (errOfJs (.typeError ("this.errorReporters[" ++ key ++ "] is not a function"))) d]

/-! ## Heap view of `appendErrLocData` (C10)

To state that the enrichment mutates the caller's object in place rather
than copying it, objects live in a heap of references; the function
returns the reference it was given and updates the heap only there. -/

/-- A heap: references to live objects. -/
abbrev Heap := List (ℕ × JObj)

def heapGet (h : Heap) (r : ℕ) : Option JObj :=
  match h with
  | [] => none
  | (r', o) :: rest => if r' = r then some o else heapGet rest r

def heapSet (h : Heap) (r : ℕ) (o : JObj) : Heap :=
  match h with
  | [] => []
  | (r', o') :: rest =>
      if r' = r then (r', o) :: rest else (r', o') :: heapSet rest r o

/-- `appendErrLocData` on the heap: the argument object is looked up,
enriched through the two assignments when the stack parses, and the
same reference is returned (line 213 returns the argument itself). -/
def appendErrLocDataH (e : ErrObj) (h : Heap) (r : ℕ) : Heap × ℕ :=
  match heapGet h r with
  | none => (h, r)
  | some data =>
      match parseErrLoc e.stack with
      | none => (h, r)
      | some (file, line) =>
          (heapSet h r (jsSet (jsSet data "errFile" file) "errLine" line), r)

/-- A reference not yet live in the heap, for objects the code allocates. -/
def freshRef (h : Heap) : ℕ := (h.map Prod.fst).foldr max 0 + 1

/-- `reportGeneralError(error, data)` (src/logger.js lines 98–100) as it
threads the data object: `appendErrLocData` receives the caller's `data`
argument itself, so the enrichment lands on the caller's reference. -/
def reportGeneralErrorH (e : ErrObj) (h : Heap) (r : ℕ) : Heap × ℕ :=
  appendErrLocDataH e h r

/-- `reportUnexpectedError(error, data)` (lines 90–92): identical data
threading to `reportGeneralError`, only the default severity differs. -/
def reportUnexpectedErrorH (e : ErrObj) (h : Heap) (r : ℕ) : Heap × ℕ :=
  appendErrLocDataH e h r

/-- `reportApiError(error, data)` (lines 123–125) as it threads the data
object: the caller's object is only read, through the spread
`{ ...error.etc, ...data }`; `getApiRequestData` returns a fresh object
(allocated here at a fresh reference — the intermediate spread object is
unreachable afterwards and is not modelled), and `appendErrLocData` is
applied to that fresh object.  A throw from `getApiRequestData`
propagates before any enrichment happens. -/
def reportApiErrorH (e : ErrObj) (h : Heap) (r : ℕ) :
    Except JsErr (Heap × ℕ) :=
  match getApiRequestData e.request (mergeSpread e.etc ((heapGet h r).getD [])) with
  | .error err => .error err
  | .ok d => .ok (appendErrLocDataH e (h ++ [(freshRef h, d)]) (freshRef h))

/-- `reportSocketError(error, data)` (lines 131–133): same threading as
`reportApiError`, with `getSocketRequestData` building the fresh object. -/
def reportSocketErrorH (e : ErrObj) (h : Heap) (r : ℕ) :
    Except JsErr (Heap × ℕ) :=
  match getSocketRequestData e.socket e.socketReq
      (mergeSpread e.etc ((heapGet h r).getD [])) with
  | .error err => .error err
  | .ok d => .ok (appendErrLocDataH e (h ++ [(freshRef h, d)]) (freshRef h))

/-- A plain error-like value: every optional property `undefined`. -/
def baseErr : ErrObj :=
  { errorType := none, str := "Error: boom", stack := none, level := .undef,
    request := none, mainRequest := none, socket := none, socketReq := none,
    etc := [], response := none }

/-!
# Theorems
-/

/-! ## Object and heap lemmas -/

theorem jsGet_jsSet_self (o : JObj) (k : String) (v : JValue) :
    jsGet (jsSet o k v) k = some v := by
  induction o with
  | nil => simp [jsSet, jsGet]
  | cons hd tl ih =>
      obtain ⟨k', v'⟩ := hd
      by_cases h : k' = k <;> simp [jsSet, jsGet, h, ih]

theorem jsGet_jsSet_ne (o : JObj) (k k' : String) (v : JValue) (h : k ≠ k') :
    jsGet (jsSet o k v) k' = jsGet o k' := by
  induction o with
  | nil => simp [jsSet, jsGet, h]
  | cons hd tl ih =>
      obtain ⟨k₀, v₀⟩ := hd
      by_cases h₀ : k₀ = k
      · subst h₀; simp [jsSet, jsGet, h]
      · by_cases h₁ : k₀ = k' <;> simp [jsSet, jsGet, h₀, h₁, ih, Ne.symm h]

/-- A string whose first character is not `'_'` is never of the form
`"_" ++ t`. -/
theorem ne_underscore_append (k : String) (h : k.data.head? ≠ some '_') :
    ∀ t, k ≠ "_" ++ t := by
  intro t he
  apply h
  rw [he]
  rfl

/-- Keys written by `setAllUnderscored` all start with `'_'`, so a key
that is not of that form reads the same before and after the loop. -/
theorem jsGet_setAllUnderscored_of_not_underscore (o : JObj) (data : JObj)
    (k : String) (hk : ∀ t, k ≠ "_" ++ t) :
    jsGet (setAllUnderscored o data) k = jsGet o k := by
  induction data generalizing o with
  | nil => rfl
  | cons hd tl ih =>
      have hne : ("_" ++ hd.1) ≠ k := fun h => hk hd.1 h.symm
      simp only [setAllUnderscored, List.foldl_cons] at *
      rw [ih, jsGet_jsSet_ne _ _ _ _ hne]

theorem jsGet_jsSet_congr (o o' : JObj) (k kk : String) (v : JValue)
    (h : jsGet o k = jsGet o' k) :
    jsGet (jsSet o kk v) k = jsGet (jsSet o' kk v) k := by
  by_cases hk : kk = k
  · subst hk; rw [jsGet_jsSet_self, jsGet_jsSet_self]
  · rw [jsGet_jsSet_ne _ _ _ _ hk, jsGet_jsSet_ne _ _ _ _ hk, h]

/-- Two objects that read equal at `k` still read equal at `k` after the
same prefixing loop runs over both. -/
theorem jsGet_setAllUnderscored_congr (data : JObj) (o o' : JObj)
    (k : String) (h : jsGet o k = jsGet o' k) :
    jsGet (setAllUnderscored o data) k = jsGet (setAllUnderscored o' data) k := by
  induction data generalizing o o' with
  | nil => exact h
  | cons hd tl ih =>
      simp only [setAllUnderscored, List.foldl_cons] at *
      exact ih _ _ (jsGet_jsSet_congr _ _ _ _ _ h)

theorem heapGet_heapSet_self (h : Heap) (r : ℕ) (o o₀ : JObj)
    (hr : heapGet h r = some o₀) : heapGet (heapSet h r o) r = some o := by
  induction h with
  | nil => simp [heapGet] at hr
  | cons hd tl ih =>
      obtain ⟨r', o'⟩ := hd
      by_cases h' : r' = r
      · simp [heapGet, heapSet, h'] at hr ⊢
      · simp [heapGet, heapSet, h'] at hr ⊢
        exact ih hr

theorem heapGet_heapSet_ne (h : Heap) (r r' : ℕ) (o : JObj) (hne : r' ≠ r) :
    heapGet (heapSet h r o) r' = heapGet h r' := by
  induction h with
  | nil => simp [heapSet]
  | cons hd tl ih =>
      obtain ⟨r₀, o₀⟩ := hd
      by_cases h₀ : r₀ = r
      · subst h₀; simp [heapSet, heapGet, Ne.symm hne]
      · by_cases h₁ : r₀ = r' <;> simp [heapSet, heapGet, h₀, h₁, ih, hne]

theorem lt_freshRef_of_mem (h : Heap) (r : ℕ) (x : JObj)
    (hr : heapGet h r = some x) : r < freshRef h := by
  induction h with
  | nil => simp [heapGet] at hr
  | cons hd tl ih =>
      obtain ⟨r₀, o₀⟩ := hd
      have hfr : freshRef ((r₀, o₀) :: tl) =
          max r₀ ((tl.map Prod.fst).foldr max 0) + 1 := rfl
      by_cases h₀ : r₀ = r
      · subst h₀
        rw [hfr]
        exact Nat.lt_succ_of_le (le_max_left _ _)
      · simp [heapGet, h₀] at hr
        have h1 : r < (tl.map Prod.fst).foldr max 0 + 1 := ih hr
        rw [hfr]
        exact Nat.lt_succ_of_le (le_trans (Nat.lt_succ_iff.mp h1)
          (le_max_right _ _))

theorem heapGet_freshRef (h : Heap) : heapGet h (freshRef h) = none := by
  cases hx : heapGet h (freshRef h) with
  | none => rfl
  | some x => exact absurd (lt_freshRef_of_mem h _ x hx) (lt_irrefl _)

theorem heapGet_append_left (h l : Heap) (r : ℕ) (x : JObj)
    (hr : heapGet h r = some x) : heapGet (h ++ l) r = some x := by
  induction h with
  | nil => simp [heapGet] at hr
  | cons hd tl ih =>
      obtain ⟨r₀, o₀⟩ := hd
      by_cases h₀ : r₀ = r
      · simp [heapGet, h₀] at hr ⊢
        exact hr
      · simp [heapGet, h₀] at hr ⊢
        exact ih hr

theorem heapGet_append_right (h l : Heap) (r : ℕ)
    (hr : heapGet h r = none) : heapGet (h ++ l) r = heapGet l r := by
  induction h with
  | nil => rfl
  | cons hd tl ih =>
      obtain ⟨r₀, o₀⟩ := hd
      by_cases h₀ : r₀ = r
      · simp [heapGet, h₀] at hr
      · simp [heapGet, h₀] at hr ⊢
        exact ih hr

/-! ## Claim theorems -/

/-- C1: for every record, configuration, ambient reading, transport and
transport outcome, `report` resolves successfully toward the caller; when
the send operation throws or rejects, the failure together with the built
record and the original data is written to the local fallback sink and
the returned promise still resolves. -/
theorem report_never_rejects {ε : Type} (s f : JValue) (data : JObj)
    (l : JValue) (c : GConfig) (a : Ambient) (outcome : Except ε Unit) :
    (report s f data l c a outcome).1 = .ok () ∧
    (∀ e, outcome = .error e →
      (report s f data l c a outcome).2 =
        [(e, getLogObject s f data l c a, data)]) := by
  cases outcome <;> simp [report]

theorem report_never_rejects_witness :
    (report (ε := Unit) (.str "s") (.str "f") [] (.num 1)
        ⟨.str "dev", .str "app"⟩ ⟨0, "h", "d"⟩ (.error ())).1 = .ok () ∧
    (report (ε := Unit) (.str "s") (.str "f") [] (.num 1)
        ⟨.str "dev", .str "app"⟩ ⟨0, "h", "d"⟩ (.error ())).2 =
      [((), getLogObject (.str "s") (.str "f") [] (.num 1)
        ⟨.str "dev", .str "app"⟩ ⟨0, "h", "d"⟩, [])] :=
  ⟨(report_never_rejects (.str "s") (.str "f") [] (.num 1)
      ⟨.str "dev", .str "app"⟩ ⟨0, "h", "d"⟩ (.error ())).1,
   (report_never_rejects (.str "s") (.str "f") [] (.num 1)
      ⟨.str "dev", .str "app"⟩ ⟨0, "h", "d"⟩ (.error ())).2 () rfl⟩

/-- Shape of a `connectLoop` run against `N` failures, with and without a
final success. -/
theorem connectLoop_replicate (N d : ℕ) :
    RabbitMQ.connectLoop d (List.replicate N false ++ [true]) =
      ⟨N + 1, List.replicate N d, true⟩ ∧
    RabbitMQ.connectLoop d (List.replicate N false) =
      ⟨N, List.replicate N d, false⟩ := by
  induction N with
  | zero => exact ⟨rfl, rfl⟩
  | succ n ih =>
      refine ⟨?_, ?_⟩
      · show RabbitMQ.connectLoop d (false :: (List.replicate n false ++ [true])) = _
        simp only [RabbitMQ.connectLoop, ih.1, List.replicate_succ]
      · show RabbitMQ.connectLoop d (false :: List.replicate n false) = _
        simp only [RabbitMQ.connectLoop, ih.2, List.replicate_succ]

/-- C3: a single `connect()` call facing `N` consecutive attempt failures
followed by a success performs exactly `N + 1` attempts, waits the
configured retry delay after each of the `N` failures, and ends with
`isConnected` set right after the succeeding attempt; facing `N` failures
with no success yet, it has performed exactly `N` attempts and is still
not connected — there is no attempt cap. -/
theorem connect_retries_until_success (N retryDelay : ℕ) :
    RabbitMQ.connect false retryDelay (List.replicate N false ++ [true]) =
      ⟨N + 1, List.replicate N retryDelay, true⟩ ∧
    RabbitMQ.connect false retryDelay (List.replicate N false) =
      ⟨N, List.replicate N retryDelay, false⟩ :=
  ⟨(connectLoop_replicate N retryDelay).1, (connectLoop_replicate N retryDelay).2⟩

/-- C4: `sendMessage` resolves exactly when the broker acknowledgment
callback reports success, rejects with the broker's error on a negative
acknowledgment, and rejects (rather than buffering) when no channel
exists. -/
theorem sendMessage_ack_semantics {ε : Type} (ack : Except ε Unit) :
    (RabbitMQ.sendMessage (some ()) ack = .ok () ↔ ack = .ok ()) ∧
    (∀ e, ack = .error e →
      RabbitMQ.sendMessage (some ()) ack = .error (.nack e)) ∧
    RabbitMQ.sendMessage (ε := ε) none ack = .error .nullChannel := by
  cases ack <;> simp [RabbitMQ.sendMessage]

theorem sendMessage_ack_semantics_witness :
    RabbitMQ.sendMessage (ε := Unit) (some ()) (.error ()) = .error (.nack ()) ∧
    RabbitMQ.sendMessage (ε := Unit) none (.ok ()) = .error .nullChannel :=
  ⟨(sendMessage_ack_semantics (.error ())).2.1 () rfl,
   (sendMessage_ack_semantics (.ok ())).2.2⟩

/-- C2: evaluation of the interleaving model at the failing input.  Two
`connect()` calls start while disconnected; the schedule lets the second
caller run its `while (!this.isConnected)` test before the first
caller's attempt resolves.  Both pass the test — the only guard is the
`isConnected` flag, which is still `false` — so both start attempts:
2 attempts and two live loops, against an oracle where every attempt
succeeds, whereas a single `connect()` run against the same oracle
performs exactly 1 attempt. -/
theorem concurrent_connect_two_loops :
    (RabbitMQ.run RabbitMQ.twoConnectInit
        [true, false, true, false, true, false]).attempts = 2 ∧
    (RabbitMQ.run RabbitMQ.twoConnectInit
        [true, false, true, false, true, false]).pc1 = .finished ∧
    (RabbitMQ.run RabbitMQ.twoConnectInit
        [true, false, true, false, true, false]).pc2 = .finished ∧
    (RabbitMQ.connect false 1000 [true]).attempts = 1 := by
  decide

/-- C5 counterexample: with a channel whose `close()` throws and a healthy
connection, `close()` rejects toward its caller with that error — the
closure is not best-effort — and the connection is never closed. -/
theorem close_propagates_channel_error :
    RabbitMQ.close (ε := Unit) (some (.error ())) (some (.ok ())) =
      (false, [], .error ()) ∧
    (.error () : Except Unit Unit) ≠ .ok () := by
  exact ⟨rfl, by simp⟩

/-- C5 amended: `close()` clears `isConnected` unconditionally before any
closure and closes the channel before the connection, but each closure is
unguarded: an error from `channel.close()` propagates to the caller of
`close()` and skips `connection.close()`, and an error from
`connection.close()` propagates to the caller. -/
theorem close_amended {ε : Type} (channel connection : Option (Except ε Unit)) :
    (RabbitMQ.close channel connection).1 = false ∧
    (∀ e, channel = some (.error e) →
      RabbitMQ.close channel connection = (false, [], .error e)) ∧
    (∀ e, channel = some (.ok ()) → connection = some (.error e) →
      RabbitMQ.close channel connection =
        (false, [.channelClosed], .error e)) ∧
    (channel = some (.ok ()) → connection = some (.ok ()) →
      RabbitMQ.close channel connection =
        (false, [.channelClosed, .connectionClosed], .ok ())) ∧
    (channel = none → connection = none →
      RabbitMQ.close channel connection = (false, [], .ok ())) := by
  refine ⟨?_, ?_, ?_, ?_, ?_⟩
  · rcases channel with _ | ce
    · rcases connection with _ | ce2
      · rfl
      · cases ce2 <;> rfl
    · cases ce with
      | error e => rfl
      | ok u =>
          rcases connection with _ | ce2
          · rfl
          · cases ce2 <;> rfl
  · rintro e rfl; rfl
  · rintro e rfl rfl; rfl
  · rintro rfl rfl; rfl
  · rintro rfl rfl; rfl

theorem close_amended_witness :
    RabbitMQ.close (ε := Unit) (some (.ok ())) (some (.error ())) =
      (false, [.channelClosed], .error ()) :=
  (close_amended (some (.ok ())) (some (.error ()))).2.2.1 () rfl rfl

/-- C6: a configured transport string whose lowercase form is a valid
transport is normalized to that lowercase value with no warning; any
other value falls back to `"console"` with exactly one warning.  The
normalization is a total function — construction never fails. -/
theorem transport_normalization (s : String) :
    (jsToLower s ∈ validTransports → normalizeTransport s = (jsToLower s, 0)) ∧
    (jsToLower s ∉ validTransports → normalizeTransport s = ("console", 1)) := by
  constructor <;> intro h <;> simp [normalizeTransport, h]

theorem transport_normalization_witness :
    normalizeTransport "HTTP" = (jsToLower "HTTP", 0) ∧
    normalizeTransport "Bogus" = ("console", 1) :=
  ⟨(transport_normalization "HTTP").1 (by decide),
   (transport_normalization "Bogus").2 (by decide)⟩

/-- C7 counterexample: the extra-data key `"env"` is prefixed to `"_env"`,
which is itself a reserved record field; with `config.env = "prod"` the
extra key overwrites the reserved field in the produced record. -/
theorem extra_key_overwrites_reserved_env :
    jsGet (getLogObject (.str "s") (.str "f") [("env", .str "attacker")]
        (.num 1) ⟨.str "prod", .str "app"⟩ ⟨0, "h", "Jan 1"⟩) "_env" =
      some (.str "attacker") ∧
    JValue.str "attacker" ≠ JValue.str "prod" := by
  exact ⟨rfl, by decide⟩

/-- C7 amended: prefixing extra keys with `'_'` protects exactly the
unprefixed reserved fields — `version`, `host`, `timestamp`,
`short_message`, `full_message` and `level` keep their fixed values for
every extra-data map — while an extra key `env`, `localeDate` or
`app_name` still collides with the reserved underscore-prefixed fields
(`_env`, `_localeDate`, `_app_name`) and overwrites them. -/
theorem getLogObject_unprefixed_reserved_fields (s f : JValue) (data : JObj)
    (l : JValue) (c : GConfig) (a : Ambient) :
    jsGet (getLogObject s f data l c a) "version" = some (.str "1.1") ∧
    jsGet (getLogObject s f data l c a) "host" = some (.str a.hostname) ∧
    jsGet (getLogObject s f data l c a) "timestamp" =
      some (.num ((a.now : ℚ) / 1000)) ∧
    jsGet (getLogObject s f data l c a) "short_message" = some s ∧
    jsGet (getLogObject s f data l c a) "full_message" = some f ∧
    jsGet (getLogObject s f data l c a) "level" = some l := by
  refine ⟨?_, ?_, ?_, ?_, ?_, ?_⟩ <;>
  · simp only [getLogObject]
    rw [jsGet_setAllUnderscored_of_not_underscore _ _ _
      (ne_underscore_append _ (by decide))]
    simp [jsGet]

/-- C9 counterexample: two `getLogObject` calls with identical five
arguments but made at different clock readings produce different records
— the builder is not a function of its five inputs alone. -/
theorem getLogObject_reads_the_clock :
    jsGet (getLogObject (.str "s") (.str "f") [] (.num 1)
        ⟨.str "dev", .str "app"⟩ ⟨1000, "h", "d"⟩) "timestamp" =
      some (.num 1) ∧
    jsGet (getLogObject (.str "s") (.str "f") [] (.num 1)
        ⟨.str "dev", .str "app"⟩ ⟨2000, "h", "d"⟩) "timestamp" =
      some (.num 2) ∧
    getLogObject (.str "s") (.str "f") [] (.num 1)
        ⟨.str "dev", .str "app"⟩ ⟨1000, "h", "d"⟩ ≠
      getLogObject (.str "s") (.str "f") [] (.num 1)
        ⟨.str "dev", .str "app"⟩ ⟨2000, "h", "d"⟩ := by
  have h1 : jsGet (getLogObject (.str "s") (.str "f") [] (.num 1)
      ⟨.str "dev", .str "app"⟩ ⟨1000, "h", "d"⟩) "timestamp" =
      some (.num 1) := by
    simp only [getLogObject, setAllUnderscored, List.foldl_nil]
    norm_num [jsGet]
    rw [if_neg (by decide : ¬("version" : String) = "timestamp"),
        if_neg (by decide : ¬("host" : String) = "timestamp")]
  have h2 : jsGet (getLogObject (.str "s") (.str "f") [] (.num 1)
      ⟨.str "dev", .str "app"⟩ ⟨2000, "h", "d"⟩) "timestamp" =
      some (.num 2) := by
    simp only [getLogObject, setAllUnderscored, List.foldl_nil]
    norm_num [jsGet]
    rw [if_neg (by decide : ¬("version" : String) = "timestamp"),
        if_neg (by decide : ¬("host" : String) = "timestamp")]
  refine ⟨h1, h2, fun h => ?_⟩
  rw [h] at h1
  have h3 := h1.symm.trans h2
  norm_num at h3

/-- C9 amended: besides its five arguments, `getLogObject` reads the
clock, the hostname and the locale formatter; it is deterministic in the
five arguments together with those ambient readings, writes nothing, and
the ambient readings influence only the `host`, `timestamp` and
`_localeDate` fields of the record. -/
theorem getLogObject_deterministic_given_ambient (s f : JValue)
    (data : JObj) (l : JValue) (c : GConfig) (a a' : Ambient) :
    (a = a' → getLogObject s f data l c a = getLogObject s f data l c a') ∧
    (∀ k, k ≠ "host" → k ≠ "timestamp" → k ≠ "_localeDate" →
      jsGet (getLogObject s f data l c a) k =
        jsGet (getLogObject s f data l c a') k) := by
  constructor
  · rintro rfl; rfl
  · intro k h1 h2 h3
    simp only [getLogObject]
    apply jsGet_setAllUnderscored_congr
    simp [jsGet, Ne.symm h1, Ne.symm h2, Ne.symm h3]

theorem getLogObject_deterministic_given_ambient_witness :
    getLogObject (.str "s") (.str "f") [] (.num 1)
        ⟨.str "dev", .str "app"⟩ ⟨1000, "h", "d"⟩ =
      getLogObject (.str "s") (.str "f") [] (.num 1)
        ⟨.str "dev", .str "app"⟩ ⟨1000, "h", "d"⟩ ∧
    jsGet (getLogObject (.str "s") (.str "f") [] (.num 1)
        ⟨.str "dev", .str "app"⟩ ⟨1000, "h", "d"⟩) "level" =
      jsGet (getLogObject (.str "s") (.str "f") [] (.num 1)
        ⟨.str "dev", .str "app"⟩ ⟨2000, "h", "d"⟩) "level" :=
  ⟨(getLogObject_deterministic_given_ambient (.str "s") (.str "f") [] (.num 1)
      ⟨.str "dev", .str "app"⟩ ⟨1000, "h", "d"⟩ ⟨1000, "h", "d"⟩).1 rfl,
   (getLogObject_deterministic_given_ambient (.str "s") (.str "f") [] (.num 1)
      ⟨.str "dev", .str "app"⟩ ⟨1000, "h", "d"⟩ ⟨2000, "h", "d"⟩).2 "level"
      (by decide) (by decide) (by decide)⟩

/-- C8 counterexample: a well-formed error object carrying the
unrecognized kind tag `"foo"` is not handled by the single generic path:
the reporter lookup yields `undefined`, the call throws, and the `catch`
makes two generic reports — whereas the same object with the tag missing
gets exactly one generic report. -/
theorem errorCall_unrecognized_not_generic_path :
    (errorCall { baseErr with errorType := some "foo" } []).length = 2 ∧
    (errorCall baseErr []).length = 1 :=
  ⟨rfl, rfl⟩

/-- C8 amended: a missing kind tag dispatches to the generic reporter
(one generic report); an unrecognized kind tag makes the lookup yield
`undefined` and the call throw, which the `catch` degrades into exactly
two generic reports (the original error, then the lookup failure) — the
same degradation as a classification failure, where a recognized
reporter throws on a malformed error object; a recognized reporter that
succeeds makes exactly its one report.  In all cases `error()` returns
the report list without throwing. -/
theorem errorCall_amended (e : ErrObj) (d : JObj) :
    (e.errorType = none → errorCall e d = [generalReport e d]) ∧
    (∀ t, e.errorType = some t → errorReporters.lookup t = none →
      errorCall e d =
        [generalReport e d,
         generalReport (errOfJs (.typeError
           ("this.errorReporters[" ++ t ++ "] is not a function"))) d]) ∧
    (∀ t rep err, e.errorType = some t → errorReporters.lookup t = some rep →
      rep e d = .error err →
      errorCall e d = [generalReport e d, generalReport (errOfJs err) d]) ∧
    (∀ t rep r, e.errorType = some t → errorReporters.lookup t = some rep →
      rep e d = .ok r → errorCall e d = [r]) := by
  refine ⟨?_, ?_, ?_, ?_⟩
  · intro h
    simp only [errorCall, h, Option.getD_none]
    rfl
  · intro t h1 h2
    simp only [errorCall, h1, Option.getD_some, h2]
  · intro t rep err h1 h2 h3
    simp only [errorCall, h1, Option.getD_some, h2, h3]
  · intro t rep r h1 h2 h3
    simp only [errorCall, h1, Option.getD_some, h2, h3]

theorem errorCall_amended_witness :
    errorCall { baseErr with errorType := some "foo" } [] =
      [generalReport { baseErr with errorType := some "foo" } [],
       generalReport (errOfJs (.typeError
         ("this.errorReporters[" ++ "foo" ++ "] is not a function"))) []] ∧
    errorCall { baseErr with errorType := some "api" } [] =
      [generalReport { baseErr with errorType := some "api" } [],
       generalReport (errOfJs (.typeError
         "Cannot read properties of undefined (reading method)")) []] :=
  ⟨(errorCall_amended { baseErr with errorType := some "foo" } []).2.1
      "foo" rfl rfl,
   (errorCall_amended { baseErr with errorType := some "api" } []).2.2.1
      "api" reportApiError
      (.typeError "Cannot read properties of undefined (reading method)")
      rfl rfl rfl⟩

/-- Mechanics of the `appendErrLocData` helper on the heap: it hands back
the very reference it was given and leaves every other heap object
untouched; when the stack parses, the referenced object gains `errFile`
and `errLine` and keeps every other field; when the parse throws, the
heap is unchanged. -/
theorem appendErrLocDataH_in_place (e : ErrObj) (h : Heap) (r : ℕ)
    (data : JObj) (hr : heapGet h r = some data) :
    (appendErrLocDataH e h r).2 = r ∧
    (∀ r₂, r₂ ≠ r →
      heapGet (appendErrLocDataH e h r).1 r₂ = heapGet h r₂) ∧
    (parseErrLoc e.stack = none → (appendErrLocDataH e h r).1 = h) ∧
    (∀ file line, parseErrLoc e.stack = some (file, line) →
      heapGet (appendErrLocDataH e h r).1 r =
        some (jsSet (jsSet data "errFile" file) "errLine" line) ∧
      jsGet (jsSet (jsSet data "errFile" file) "errLine" line) "errFile" =
        some file ∧
      jsGet (jsSet (jsSet data "errFile" file) "errLine" line) "errLine" =
        some line ∧
      (∀ k, k ≠ "errFile" → k ≠ "errLine" →
        jsGet (jsSet (jsSet data "errFile" file) "errLine" line) k =
          jsGet data k)) := by
  cases hp : parseErrLoc e.stack with
  | none =>
      refine ⟨?_, fun r₂ _ => ?_, fun _ => ?_, fun file line hfl => ?_⟩
      · simp [appendErrLocDataH, hr, hp]
      · simp [appendErrLocDataH, hr, hp]
      · simp [appendErrLocDataH, hr, hp]
      · simp [hp] at hfl
  | some pr =>
      obtain ⟨file0, line0⟩ := pr
      refine ⟨?_, fun r₂ hne => ?_, fun hnone => ?_, fun file line hfl => ?_⟩
      · simp [appendErrLocDataH, hr, hp]
      · simp only [appendErrLocDataH, hr, hp]
        exact heapGet_heapSet_ne h r r₂ _ hne
      · simp [hp] at hnone
      · simp only [Option.some.injEq, Prod.mk.injEq] at hfl
        obtain ⟨rfl, rfl⟩ := hfl
        refine ⟨?_, ?_, ?_, fun k hk1 hk2 => ?_⟩
        · simp only [appendErrLocDataH, hr, hp]
          exact heapGet_heapSet_self h r _ data hr
        · rw [jsGet_jsSet_ne _ _ _ _ (by decide)]
          exact jsGet_jsSet_self data "errFile" file0
        · exact jsGet_jsSet_self _ "errLine" line0
        · rw [jsGet_jsSet_ne _ _ _ _ (Ne.symm hk2),
              jsGet_jsSet_ne _ _ _ _ (Ne.symm hk1)]

theorem appendErrLocDataH_in_place_witness :
    (appendErrLocDataH
        { baseErr with stack := some "Error: x\n    at foo (file.js:12:5)" }
        [(0, [("a", .str "b")])] 0).2 = 0 ∧
    heapGet (appendErrLocDataH
        { baseErr with stack := some "Error: x\n    at foo (file.js:12:5)" }
        [(0, [("a", .str "b")])] 0).1 0 =
      some (jsSet (jsSet [("a", .str "b")] "errFile" (.str "file.js"))
        "errLine" (.str "12")) :=
  ⟨(appendErrLocDataH_in_place
      { baseErr with stack := some "Error: x\n    at foo (file.js:12:5)" }
      [(0, [("a", .str "b")])] 0 [("a", .str "b")] rfl).1,
   ((appendErrLocDataH_in_place
      { baseErr with stack := some "Error: x\n    at foo (file.js:12:5)" }
      [(0, [("a", .str "b")])] 0 [("a", .str "b")] rfl).2.2.2
      (.str "file.js") (.str "12") rfl).1⟩

/-- C10 counterexample: `reportApiError` does not mutate the caller's
data object.  With a stack that parses and a well-formed request, the
call succeeds, yet the caller's object (reference 0) is unchanged — it
never gains `errFile` — while the enrichment lands on a different, fresh
reference (1), whose object does carry `errFile`. -/
theorem reportApiError_ignores_caller_object :
    ((reportApiErrorH
        { baseErr with
            stack := some "Error: x\n    at foo (file.js:12:5)",
            request := some ⟨.str "GET", .undef, .str "/u", .str "9.9.9.9",
              none, [], []⟩ }
        [(0, [("a", .str "b")])] 0).toOption.map
      fun p => (heapGet p.1 0, p.2)) = some (some [("a", .str "b")], 1) ∧
    ((reportApiErrorH
        { baseErr with
            stack := some "Error: x\n    at foo (file.js:12:5)",
            request := some ⟨.str "GET", .undef, .str "/u", .str "9.9.9.9",
              none, [], []⟩ }
        [(0, [("a", .str "b")])] 0).toOption.map
      fun p => jsGet ((heapGet p.1 p.2).getD []) "errFile") =
        some (some (.str "file.js")) ∧
    parseErrLoc (some "Error: x\n    at foo (file.js:12:5)") =
      some (.str "file.js", .str "12") ∧
    jsGet [("a", .str "b")] "errFile" = none :=
  ⟨rfl, rfl, rfl, rfl⟩

/-- C10 amended: `appendErrLocData` mutates the object it is given in
place — same reference back, only `errFile`/`errLine` added when the
stack parses, other fields and other heap objects untouched, heap
unchanged when the parse throws.  `reportGeneralError` and
`reportUnexpectedError` pass the caller's data object itself to the
enrichment, so it is the caller's object that gains the fields.
`reportApiError` and `reportSocketError`, however, spread the caller's
data into a fresh request-data object and enrich that fresh object: on
success the caller's object is left untouched and the enriched reference
differs from the caller's. -/
theorem errLoc_enrichment_threading (e : ErrObj) (h : Heap) (r : ℕ)
    (data : JObj) (hr : heapGet h r = some data) :
    ((reportGeneralErrorH e h r).2 = r ∧ (reportUnexpectedErrorH e h r).2 = r) ∧
    (∀ r₂, r₂ ≠ r →
      heapGet (reportGeneralErrorH e h r).1 r₂ = heapGet h r₂) ∧
    (∀ file line, parseErrLoc e.stack = some (file, line) →
      heapGet (reportGeneralErrorH e h r).1 r =
        some (jsSet (jsSet data "errFile" file) "errLine" line) ∧
      (∀ k, k ≠ "errFile" → k ≠ "errLine" →
        jsGet (jsSet (jsSet data "errFile" file) "errLine" line) k =
          jsGet data k)) ∧
    (parseErrLoc e.stack = none → (reportGeneralErrorH e h r).1 = h) ∧
    (∀ h' r', reportApiErrorH e h r = .ok (h', r') →
      heapGet h' r = some data ∧ r' ≠ r) ∧
    (∀ h' r', reportSocketErrorH e h r = .ok (h', r') →
      heapGet h' r = some data ∧ r' ≠ r) := by
  have old := appendErrLocDataH_in_place e h r data hr
  have hfresh : r < freshRef h := lt_freshRef_of_mem h r data hr
  have hne : r ≠ freshRef h := Nat.ne_of_lt hfresh
  refine ⟨⟨old.1, old.1⟩, old.2.1, ?_, old.2.2.1, ?_, ?_⟩
  · intro file line hfl
    have o4 := old.2.2.2 file line hfl
    exact ⟨o4.1, o4.2.2.2⟩
  · intro h' r' hcall
    simp only [reportApiErrorH] at hcall
    cases hga : getApiRequestData e.request
        (mergeSpread e.etc ((heapGet h r).getD [])) with
    | error err => rw [hga] at hcall; simp at hcall
    | ok d =>
        rw [hga] at hcall
        injection hcall with hp
        have hh : h' = (appendErrLocDataH e (h ++ [(freshRef h, d)])
            (freshRef h)).1 := by rw [hp]
        have hr' : r' = (appendErrLocDataH e (h ++ [(freshRef h, d)])
            (freshRef h)).2 := by rw [hp]
        subst hh
        subst hr'
        have hrfd : heapGet (h ++ [(freshRef h, d)]) (freshRef h) = some d := by
          rw [heapGet_append_right _ _ _ (heapGet_freshRef h)]
          simp [heapGet]
        have old2 := appendErrLocDataH_in_place e
          (h ++ [(freshRef h, d)]) (freshRef h) d hrfd
        constructor
        · rw [old2.2.1 r hne]
          exact heapGet_append_left h _ r data hr
        · rw [old2.1]
          exact Ne.symm hne
  · intro h' r' hcall
    simp only [reportSocketErrorH] at hcall
    cases hgs : getSocketRequestData e.socket e.socketReq
        (mergeSpread e.etc ((heapGet h r).getD [])) with
    | error err => rw [hgs] at hcall; simp at hcall
    | ok d =>
        rw [hgs] at hcall
        injection hcall with hp
        have hh : h' = (appendErrLocDataH e (h ++ [(freshRef h, d)])
            (freshRef h)).1 := by rw [hp]
        have hr' : r' = (appendErrLocDataH e (h ++ [(freshRef h, d)])
            (freshRef h)).2 := by rw [hp]
        subst hh
        subst hr'
        have hrfd : heapGet (h ++ [(freshRef h, d)]) (freshRef h) = some d := by
          rw [heapGet_append_right _ _ _ (heapGet_freshRef h)]
          simp [heapGet]
        have old2 := appendErrLocDataH_in_place e
          (h ++ [(freshRef h, d)]) (freshRef h) d hrfd
        constructor
        · rw [old2.2.1 r hne]
          exact heapGet_append_left h _ r data hr
        · rw [old2.1]
          exact Ne.symm hne

theorem errLoc_enrichment_threading_witness :
    heapGet (reportGeneralErrorH
        { baseErr with stack := some "Error: x\n    at foo (file.js:12:5)" }
        [(0, [("a", .str "b")])] 0).1 0 =
      some (jsSet (jsSet [("a", .str "b")] "errFile" (.str "file.js"))
        "errLine" (.str "12")) ∧
    (reportGeneralErrorH
        { baseErr with stack := some "Error: x\n    at foo (file.js:12:5)" }
        [(0, [("a", .str "b")])] 0).2 = 0 :=
  ⟨((errLoc_enrichment_threading
      { baseErr with stack := some "Error: x\n    at foo (file.js:12:5)" }
      [(0, [("a", .str "b")])] 0 [("a", .str "b")] rfl).2.2.1
      (.str "file.js") (.str "12") rfl).1,
   (errLoc_enrichment_threading
      { baseErr with stack := some "Error: x\n    at foo (file.js:12:5)" }
      [(0, [("a", .str "b")])] 0 [("a", .str "b")] rfl).1.1⟩

end Graylogger
